import Mathlib

set_option maxRecDepth 8000

/-!
# Verification of the `mozip` streaming ZIP encoder

A shallow embedding of `src/index.js` (the `ZipStream` class and its helper
functions) and proofs about it.

Modelling conventions:

* Byte sequences (`Buffer`, `TypedArray` payloads, the stream sink) are
  `List Nat`, each element a byte value.
* JS numbers holding validated sizes/offsets are `Nat`; the duck-typed
  `lastModified` number is `Int` (JS `Date` getters may return negative
  values for pre-1970 dates).
* The `async` method `writeFile` is split at its single `await` point
  (`await compressing`, line 122 of `src/index.js`):
  `writeFileStart` is everything that runs synchronously at call time, and
  `writeFileResume` is the continuation that runs when the external
  compressor settles.  The external `deflateRaw` compressor is opaque, so
  each call carries its outcome (`Except Unit Bytes`) as data.
* A whole session - several `writeFile` calls issued without awaiting in
  between, followed by `end()` - is executed by `runZipStream`: first every
  call's synchronous phase in issue order, then the pending compression
  continuations in an arbitrary schedule (the event loop resolves `zlib`
  jobs in an order the caller does not control), then the `_flush` that
  `super.end()` triggers after `await Promise.all(this.promises)`.
* `stream.emit('error', e)` with a consumer attached does not abort the
  running function; it is modelled by setting the `errored` flag and
  continuing, exactly as the JS code continues after the `emit` call.
-/

/-- Byte sequences: each element is one byte value (0..255 by construction). -/
abbrev Bytes := List Nat

/-! ## Constants from the head of `src/index.js` -/

def DATETIME_MAX : Nat := 0xff9fbf7d
def DATETIME_MIN : Nat := 0x00210000
def FIXED_LFH_SIZE : Nat := 30
def FIXED_CDH_SIZE : Nat := 46
def FIXED_EOCDR_SIZE : Nat := 22
def FLAG_UTF8 : Nat := 2 ^ 11
def MAX16 : Nat := 0xffff
def MAX32 : Nat := 0xffffffff
def METHOD_DEFLATE : Nat := 8
def METHOD_STORE : Nat := 0
def VERSION_DEFLATE : Nat := 20
def VERSION_STORE : Nat := 10
def VERSION_MADE_BY : Nat := 63

/-! ## Little-endian serialization (`Buffer.writeUint16LE` / `writeUint32LE`)

Every call site in the source writes a value already validated to fit the
field, so the truncating `%` never loses information in an actual run. -/

def u16le (n : Nat) : Bytes := [n % 256, n / 2 ^ 8 % 256]

def u32le (n : Nat) : Bytes := [n % 256, n / 2 ^ 8 % 256, n / 2 ^ 16 % 256, n / 2 ^ 24 % 256]

/-! ## CRC-32 (`node:zlib`'s `crc32`, the standard reflected CRC-32) -/

def crc32Round (c : Nat) : Nat :=
  if c % 2 = 1 then (c / 2) ^^^ 0xEDB88320 else c / 2

def crc32Byte (c b : Nat) : Nat := crc32Round^[8] (c ^^^ b)

def crc32 (data : Bytes) : Nat :=
  (data.foldl crc32Byte 0xFFFFFFFF) ^^^ 0xFFFFFFFF

/-! ## UTF-8 encoding (`Buffer.from(name, 'utf8')`) -/

def utf8EncodeChar (c : Char) : Bytes :=
  let n := c.toNat
  if n < 0x80 then [n]
  else if n < 0x800 then [0xC0 + n / 64, 0x80 + n % 64]
  else if n < 0x10000 then [0xE0 + n / 4096, 0x80 + n / 64 % 64, 0x80 + n % 64]
  else [0xF0 + n / 0x40000, 0x80 + n / 4096 % 64, 0x80 + n / 64 % 64, 0x80 + n % 64]

def utf8Bytes (name : List Char) : Bytes :=
  (name.map utf8EncodeChar).flatten

/-! ## Name normalization

`normalizeFilename` (src/index.js lines 195-208) calls
`node:path/posix`'s `normalize`.  Names are modelled as `List Char`
(the `String` they came from, viewed as its character list). -/

/-- Split on `'/'`, keeping empty segments (like splitting a string on a
separator). -/
def splitOnSlash : List Char → List (List Char)
  | [] => [[]]
  | '/' :: rest => [] :: splitOnSlash rest
  | c :: rest =>
    match splitOnSlash rest with
    | [] => [[c]]
    | seg :: segs => (c :: seg) :: segs

/-- Join segments with `'/'`. -/
def intercalateSlash : List (List Char) → List Char
  | [] => []
  | [seg] => seg
  | seg :: rest => seg ++ '/' :: intercalateSlash rest

/-- One segment step of Node's `normalizeString`: skip empty and `.`
segments, pop on `..` (or keep/append `..` when above root is allowed).
`res` is the stack of kept segments, most recent first. -/
def normStep (allowAboveRoot : Bool) (res : List (List Char)) (seg : List Char) :
    List (List Char) :=
  if seg = [] ∨ seg = ['.'] then res
  else if seg = ['.', '.'] then
    match res with
    | last :: rest =>
      if last ≠ ['.', '.'] then rest
      else if allowAboveRoot then seg :: res else res
    | [] => if allowAboveRoot then [seg] else []
  else seg :: res

/-- Node's `normalizeString(path, allowAboveRoot, '/', isPosixPathSeparator)`. -/
def normalizeString (cs : List Char) (allowAboveRoot : Bool) : List Char :=
  intercalateSlash (((splitOnSlash cs).foldl (normStep allowAboveRoot) []).reverse)

/-- Node's `path/posix` `normalize`. -/
def posixNormalize (cs : List Char) : List Char :=
  if cs = [] then ['.']
  else
    let isAbsolute : Bool := cs.head? = some '/'
    let trailingSep : Bool := cs.getLast? = some '/'
    let p := normalizeString cs (!isAbsolute)
    if p = [] then
      if isAbsolute then ['/']
      else if trailingSep then ['.', '/'] else ['.']
    else
      let p := if trailingSep then p ++ ['/'] else p
      if isAbsolute then '/' :: p else p

/-- The regular expression `/^[A-Za-z]:/` (`PATTERN_DRIVE`). -/
def PATTERN_DRIVE (cs : List Char) : Bool :=
  match cs with
  | a :: ':' :: _ => decide (('A' ≤ a ∧ a ≤ 'Z') ∨ ('a' ≤ a ∧ a ≤ 'z'))
  | _ => false

/-- Source function `normalizeFilename` (src/index.js lines 195-208): replace backslashes by
slashes, posix-normalize, then reject the listed shapes. -/
def normalizeFilename (name : List Char) : Except String (List Char) :=
  let n := posixNormalize (name.map fun c => if c = '\\' then '/' else c)
  if n = ['.'] ∨ n = ['.', '.'] ∨ ['/'].isPrefixOf n ∨ ['/'].isSuffixOf n ∨
      ['.', '.', '/'].isPrefixOf n ∨ PATTERN_DRIVE n then
    Except.error "Invalid file name"
  else
    Except.ok n

/-! ## Date/time codec (`dateToDosDateTime`, src/index.js lines 180-189) -/

/-- The duck-typed argument of `dateToDosDateTime`: anything with the six
`Date` getters.  `getMonth` is 0-based, as in JS. -/
structure DateLike where
  getFullYear : Int
  getMonth : Int
  getDate : Int
  getHours : Int
  getMinutes : Int
  getSeconds : Int
deriving DecidableEq

/-- Source function `dateToDosDateTime` uses plain `*`/`+` on JS numbers (exact here) and
`Math.trunc` for the seconds halving (division rounding toward zero). -/
def dateToDosDateTime (date : DateLike) : Int :=
  ((date.getFullYear - 1980) * 2 ^ 25) +
  ((date.getMonth + 1) * 2 ^ 21) +
  (date.getDate * 2 ^ 16) +
  (date.getHours * 2 ^ 11) +
  (date.getMinutes * 2 ^ 5) +
  Int.tdiv date.getSeconds 2

/-! ## Data model -/

/-- The `ZipEntry` typedef (src/index.js lines 29-41). -/
structure ZipEntry where
  byteOffset : Nat
  crc : Nat
  flag : Nat
  lastModified : Nat
  method : Nat
  name : Bytes
  nameLength : Nat
  sizeCompressed : Nat
  sizeUncompressed : Nat
  version : Nat
deriving DecidableEq

/-- The mutable state of a `ZipStream`: its fields (lines 44-48) plus the
sink (`output`, the concatenation of every chunk written/pushed so far) and
whether an `'error'` event has been emitted on the stream. -/
structure StreamState where
  entries : List ZipEntry
  byteOffset : Nat
  names : List (List Char)
  output : Bytes
  errored : Bool
deriving DecidableEq

/-- Decidable equality for compressor outcomes. -/
instance {ε α : Type} [DecidableEq ε] [DecidableEq α] : DecidableEq (Except ε α) :=
  fun a b =>
    match a, b with
    | .error x, .error y =>
      if h : x = y then .isTrue (by rw [h]) else .isFalse (by simp [h])
    | .error _, .ok _ => .isFalse (by simp)
    | .ok _, .error _ => .isFalse (by simp)
    | .ok x, .ok y =>
      if h : x = y then .isTrue (by rw [h]) else .isFalse (by simp [h])

/-- The `lastModified` option: a precomputed packed number or a date-like
object (`new Date()` when absent). -/
inductive LastMod where
  | packed (value : Int)
  | date (d : DateLike)
deriving DecidableEq

/-- One `writeFile(name, data, options)` call.  `deflated` is the outcome of
the opaque external compressor `deflateRaw(data, options.zlib)` for this
call's payload and zlib options (used only when `compress` is true). -/
structure WriteCall where
  name : List Char
  data : Bytes
  compress : Bool
  lastModified : LastMod
  deflated : Except Unit Bytes
deriving DecidableEq

/-- What a suspended `writeFile` call keeps across its `await`: the locals
of lines 96-119 that the continuation (lines 122-158) still uses. -/
structure Ticket where
  name : List Char
  nameBytes : Bytes
  nameLength : Nat
  sizeUncompressed : Nat
  dosDateTime : Nat
  crc : Nat
  deflated : Except Unit Bytes
deriving DecidableEq

/-! ## Header serialization -/

/-- The 30 fixed bytes written by `writeLocalFileHeaderAndData`
(src/index.js lines 218-228). -/
def localFileHeader (e : ZipEntry) : Bytes :=
  u32le 0x04034b50 ++ u16le e.version ++ u16le e.flag ++ u16le e.method ++
  u32le e.lastModified ++ u32le e.crc ++ u32le e.sizeCompressed ++
  u32le e.sizeUncompressed ++ u16le e.nameLength ++ u16le 0

/-- Source function `writeLocalFileHeaderAndData` (lines 215-233): write the fixed header,
the name and the (possibly compressed) data, then advance `byteOffset`. -/
def writeLocalFileHeaderAndData (s : StreamState) (e : ZipEntry) (data : Bytes) :
    StreamState :=
  { s with
    output := s.output ++ localFileHeader e ++ e.name ++ data
    byteOffset := s.byteOffset + FIXED_LFH_SIZE + e.nameLength + e.sizeCompressed }

/-- The 46 fixed bytes written by `flushCentralDirHeader`
(src/index.js lines 242-258). -/
def centralDirHeader (e : ZipEntry) : Bytes :=
  u32le 0x02014b50 ++ u16le VERSION_MADE_BY ++ u16le e.version ++ u16le e.flag ++
  u16le e.method ++ u32le e.lastModified ++ u32le e.crc ++ u32le e.sizeCompressed ++
  u32le e.sizeUncompressed ++ u16le e.nameLength ++ u16le 0 ++ u16le 0 ++ u16le 0 ++
  u16le 0 ++ u32le 0 ++ u32le e.byteOffset

/-- Source function `flushCentralDirHeader` (lines 239-262). -/
def flushCentralDirHeader (s : StreamState) (e : ZipEntry) : StreamState :=
  { s with
    output := s.output ++ centralDirHeader e ++ e.name
    byteOffset := s.byteOffset + FIXED_CDH_SIZE + e.nameLength }

/-- The 22 fixed bytes written by `flushEndOfCentralDirRecord`
(src/index.js lines 274-282). -/
def endOfCentralDirRecord (totalEntries centralDirSize centralDirOffset : Nat) :
    Bytes :=
  u32le 0x06054b50 ++ u16le 0 ++ u16le 0 ++ u16le totalEntries ++
  u16le totalEntries ++ u32le centralDirSize ++ u32le centralDirOffset ++ u16le 0

/-- Source function `flushEndOfCentralDirRecord` (lines 268-285).  The size check throws in
the JS, caught by `_flush`'s `catch` which emits `'error'` on the stream;
the record is then not written and the stream never finishes cleanly. -/
def flushEndOfCentralDirRecord (s : StreamState) (centralDirOffset : Nat) :
    StreamState :=
  let centralDirSize := s.byteOffset - centralDirOffset
  if centralDirSize > MAX32 then { s with errored := true }
  else
    { s with
      output := s.output ++
        endOfCentralDirRecord s.entries.length centralDirSize centralDirOffset
      byteOffset := s.byteOffset + FIXED_EOCDR_SIZE }

/-- The `_flush` method (src/index.js lines 54-71), run by `super.end()` once every
queued chunk has passed through: the two global limit checks, one central
directory header per entry in `entries` order, then the end record.  A
thrown `RangeError` is caught and emitted as a stream error. -/
def flushPhase (s : StreamState) : StreamState :=
  let byteOffset := s.byteOffset
  if byteOffset > MAX32 then { s with errored := true }
  else if s.entries.length > MAX16 then { s with errored := true }
  else flushEndOfCentralDirRecord (s.entries.foldl flushCentralDirHeader s) byteOffset

/-! ## The archive writer (`ZipStream.writeFile` and `end`) -/

/-- What the synchronous part of a `writeFile` call produced. -/
inductive SyncResult where
  | failed (msg : String)
  | committed
  | pending (t : Ticket)
deriving DecidableEq

/-- The commit point shared by both `writeFile` paths
(src/index.js lines 135-158): the offset-overflow `emit('error')` (which
does not return - execution falls through), building the `ZipEntry` from
the current `byteOffset`, pushing it onto `entries`, and writing the local
header, the name and the data. -/
def commitEntry (s : StreamState) (t : Ticket) (method version : Nat)
    (data : Bytes) : StreamState :=
  let s := if s.byteOffset > MAX32 then { s with errored := true } else s
  let e : ZipEntry :=
    { byteOffset := s.byteOffset
      crc := t.crc
      flag := FLAG_UTF8
      lastModified := t.dosDateTime
      method := method
      name := t.nameBytes
      nameLength := t.nameLength
      sizeCompressed := data.length
      sizeUncompressed := t.sizeUncompressed
      version := version }
  writeLocalFileHeaderAndData { s with entries := s.entries ++ [e] } e data

/-- The synchronous phase of `writeFile` (src/index.js lines 83-121, up to
the `await` on line 122): validation, name reservation, and - when
`compress` is false - the immediate commit.  The result is the state after
this phase together with what happened: a rejection, a completed call, or a
suspended continuation awaiting the compressor. -/
def writeFileStart (s : StreamState) (c : WriteCall) : StreamState × SyncResult :=
  match normalizeFilename c.name with
  | .error msg => (s, .failed msg)
  | .ok name =>
    if name ∈ s.names then (s, .failed "Duplicated file name")
    else
      let nameBytes := utf8Bytes name
      let nameLength := nameBytes.length
      let sizeUncompressed := c.data.length
      if nameLength > MAX16 then
        (s, .failed "Cannot set a file name longer than 0xFFFF bytes")
      else if sizeUncompressed > MAX32 then
        (s, .failed "Cannot add a file larger than 0xFFFFFFFF bytes")
      else
        let dosDateTime : Int :=
          match c.lastModified with
          | .packed v => v
          | .date d => dateToDosDateTime d
        if dosDateTime < (DATETIME_MIN : Nat) ∨ dosDateTime > (DATETIME_MAX : Nat) then
          (s, .failed "Invalid date/time")
        else
          let crc := crc32 c.data
          let s := { s with names := name :: s.names }
          let t : Ticket :=
            { name := name
              nameBytes := nameBytes
              nameLength := nameLength
              sizeUncompressed := sizeUncompressed
              dosDateTime := dosDateTime.toNat
              crc := crc
              deflated := c.deflated }
          if c.compress then (s, .pending t)
          else (commitEntry s t METHOD_STORE VERSION_STORE c.data, .committed)

/-- The continuation of a compressing `writeFile` call once its
`deflateRaw` promise settles (src/index.js lines 122-158): on compressor
failure or an oversized compressed payload, release the name reservation
and reject; otherwise commit. -/
def writeFileResume (s : StreamState) (t : Ticket) : StreamState × Option String :=
  match t.deflated with
  | .error _ => ({ s with names := s.names.erase t.name }, some "compressor failure")
  | .ok data =>
    if data.length > MAX32 then
      ({ s with names := s.names.erase t.name },
       some "The compressed size of file exceeds 0xFFFFFFFF bytes")
    else
      (commitEntry s t METHOD_DEFLATE VERSION_DEFLATE data, none)

/-- Issue a list of `writeFile` calls back to back, without awaiting in
between: each call's synchronous phase runs to its suspension point (or its
immediate commit/rejection) in call order.  Returns the resulting state and
the suspended continuations, in issue order. -/
def issuePhase : StreamState → List WriteCall → StreamState × List Ticket
  | s, [] => (s, [])
  | s, c :: cs =>
    match writeFileStart s c with
    | (s1, .pending t) =>
      let (s2, ts) := issuePhase s1 cs
      (s2, t :: ts)
    | (s1, _) => issuePhase s1 cs

/-- Resolve every suspended continuation.  The schedule picks which pending
compression settles next (by its current index in the pending list); once
the schedule is exhausted, the remaining continuations settle in issue
order.  Every continuation settles before this phase ends - `end()` awaits
`Promise.all(this.promises)`, whose reactions were registered after each
`writeFile`'s own `await`, so every commit lands before `_flush` runs. -/
def resolvePhase : StreamState → List Ticket → List Nat → StreamState
  | s, ts, [] => ts.foldl (fun s t => (writeFileResume s t).1) s
  | s, ts, i :: rest =>
    match ts[i]? with
    | some t => resolvePhase (writeFileResume s t).1 (ts.eraseIdx i) rest
    | none => resolvePhase s ts rest

/-- A fresh `ZipStream` (src/index.js lines 44-48). -/
def initState : StreamState :=
  { entries := [], byteOffset := 0, names := [], output := [], errored := false }

/-- The state just before `_flush`: all calls issued, all compressions
settled. -/
def preFlush (calls : List WriteCall) (sched : List Nat) : StreamState :=
  let (s, ts) := issuePhase initState calls
  resolvePhase s ts sched

/-- A whole session: issue every call without awaiting, let the pending
compressions settle in the scheduled order, then `end()` (which drains
`this.promises` and triggers `_flush`).  The fulfilled value of `end()` is
the final `byteOffset` of the resulting state. -/
def runZipStream (calls : List WriteCall) (sched : List Nat) : StreamState :=
  flushPhase (preFlush calls sched)

/-! ## Derived notions used by the statements -/

/-- One entry's central directory contribution: header then name
(`flushCentralDirHeader` pushes exactly these two chunks). -/
def centralDirChunk (e : ZipEntry) : Bytes := centralDirHeader e ++ e.name

/-- The whole central directory: one chunk per entry, in `entries` order. -/
def centralDirBytes (entries : List ZipEntry) : Bytes :=
  (entries.map centralDirChunk).flatten

/-- How far `byteOffset` advances while the central directory headers are
flushed: `FIXED_CDH_SIZE + nameLength` per entry.  This is exactly the
`centralDirSize` that `flushEndOfCentralDirRecord` computes as
`byteOffset - centralDirOffset`. -/
def cdSizeOf (entries : List ZipEntry) : Nat :=
  (entries.map fun e => FIXED_CDH_SIZE + e.nameLength).sum

/-- The bytes `_flush` appends to the sink, by its branches: nothing when a
global limit check throws up front, the central directory alone when the
directory-size check throws, and directory plus end record otherwise. -/
def flushAppend (s : StreamState) : Bytes :=
  if s.byteOffset > MAX32 then []
  else if s.entries.length > MAX16 then []
  else if cdSizeOf s.entries > MAX32 then centralDirBytes s.entries
  else
    centralDirBytes s.entries ++
      endOfCentralDirRecord s.entries.length (cdSizeOf s.entries) s.byteOffset

/-- The entry's local header, name and payload sit in the sink exactly at
the entry's recorded `byteOffset`. -/
def entryAt (out : Bytes) (e : ZipEntry) : Prop :=
  ∃ pre post, out = pre ++ localFileHeader e ++ e.name ++ post ∧
    pre.length = e.byteOffset

/-- A well-formed suspended call: its cached `nameLength` is the byte
length of its cached encoded name (they were computed from each other at
lines 96-97). -/
def TicketWf (t : Ticket) : Prop := t.nameLength = t.nameBytes.length

/-- The state invariant of a `ZipStream`: the offset counter equals the
bytes handed to the sink, every committed entry's bytes sit at its recorded
offset, every entry carries the UTF-8 flag, and entries are listed in the
order their local headers were physically written. -/
def GoodState (s : StreamState) : Prop :=
  s.output.length = s.byteOffset ∧
  (∀ e ∈ s.entries, entryAt s.output e) ∧
  (∀ e ∈ s.entries, e.flag = FLAG_UTF8) ∧
  s.entries.Pairwise fun a b => a.byteOffset < b.byteOffset

/-! ## Concrete inputs used by witnesses and counterexamples -/

/-- The §8 concrete scenario: `writeFile('hello.txt', b'hi', {compress:
false})` with a caller-chosen packed timestamp. -/
def helloCall (lm : Nat) : WriteCall :=
  { name := ['h', 'e', 'l', 'l', 'o', '.', 't', 'x', 't']
    data := [104, 105]
    compress := false
    lastModified := .packed lm
    deflated := .ok [] }

/-- The entry that scenario commits (timestamp `0x210000`). -/
def helloEntry : ZipEntry :=
  { byteOffset := 0
    crc := crc32 [104, 105]
    flag := FLAG_UTF8
    lastModified := 0x210000
    method := METHOD_STORE
    name := utf8Bytes ['h', 'e', 'l', 'l', 'o', '.', 't', 'x', 't']
    nameLength := 9
    sizeCompressed := 2
    sizeUncompressed := 2
    version := VERSION_STORE }

/-- A compressed `writeFile('a', b'hi')` whose compressor returns 3 bytes. -/
def callA : WriteCall :=
  { name := ['a']
    data := [104, 105]
    compress := true
    lastModified := .packed 0x210000
    deflated := .ok [1, 2, 3] }

/-- A compressed `writeFile('b', b'hi')` whose compressor returns 1 byte. -/
def callB : WriteCall :=
  { name := ['b']
    data := [104, 105]
    compress := true
    lastModified := .packed 0x210000
    deflated := .ok [9] }

/-- A stream that has already emitted more than `0xFFFFFFFF` bytes (as after
committing a name-1 stored entry of `0xFFFFFFFF` bytes and a few more). -/
def overflowState : StreamState :=
  { entries := [], byteOffset := 2 ^ 33, names := [], output := [], errored := false }

/-- A one-byte stored `writeFile('a', ...)`. -/
def storedA : WriteCall :=
  { name := ['a']
    data := [7]
    compress := false
    lastModified := .packed 0x210000
    deflated := .ok [] }

/-- A compressing `writeFile('a', b'hi')` whose external compressor fails. -/
def failingA : WriteCall :=
  { name := ['a']
    data := [104, 105]
    compress := true
    lastModified := .packed 0x210000
    deflated := .error () }

/-- The suspended state of `failingA` after validation: the reservation is
taken and the compressor outcome is a failure. -/
def failTicket : Ticket :=
  { name := ['a']
    nameBytes := [97]
    nameLength := 1
    sizeUncompressed := 2
    dosDateTime := 2162688
    crc := crc32 [104, 105]
    deflated := .error () }

/-- A `writeFile('a', [], {compress: false})` with caller-supplied packed
timestamp `v`. -/
def datedCall (v : Int) : WriteCall :=
  { name := ['a']
    data := []
    compress := false
    lastModified := .packed v
    deflated := .ok [] }

/-- The `ZipEntry` that `commitEntry` builds from the current offset
(src/index.js lines 140-152). -/
def committedEntry (s : StreamState) (t : Ticket) (method version : Nat)
    (data : Bytes) : ZipEntry :=
  { byteOffset := s.byteOffset
    crc := t.crc
    flag := FLAG_UTF8
    lastModified := t.dosDateTime
    method := method
    name := t.nameBytes
    nameLength := t.nameLength
    sizeCompressed := data.length
    sizeUncompressed := t.sizeUncompressed
    version := version }

/-! ## Basic facts about the serializers -/

theorem localFileHeader_length (e : ZipEntry) : (localFileHeader e).length = 30 := by
  simp [localFileHeader, u16le, u32le, List.length_append]

theorem centralDirHeader_length (e : ZipEntry) : (centralDirHeader e).length = 46 := by
  simp [centralDirHeader, u16le, u32le, List.length_append]

theorem endOfCentralDirRecord_length (n c o : Nat) :
    (endOfCentralDirRecord n c o).length = 22 := by
  simp [endOfCentralDirRecord, u16le, u32le, List.length_append]

theorem commitEntry_eq (s : StreamState) (t : Ticket) (m v : Nat) (data : Bytes) :
    commitEntry s t m v data =
      { entries := s.entries ++ [committedEntry s t m v data]
        byteOffset := s.byteOffset + FIXED_LFH_SIZE + t.nameLength + data.length
        names := s.names
        output := s.output ++ localFileHeader (committedEntry s t m v data) ++
          t.nameBytes ++ data
        errored := s.errored || decide (s.byteOffset > MAX32) } := by
  unfold commitEntry writeLocalFileHeaderAndData committedEntry
  by_cases h : s.byteOffset > MAX32 <;> simp [h]

theorem entryAt_append (out more : Bytes) (e : ZipEntry) (h : entryAt out e) :
    entryAt (out ++ more) e := by
  obtain ⟨pre, post, hout, hlen⟩ := h
  exact ⟨pre, post ++ more, by simp [hout], hlen⟩

theorem entryAt_lt_length (out : Bytes) (e : ZipEntry) (h : entryAt out e) :
    e.byteOffset < out.length := by
  obtain ⟨pre, post, hout, hlen⟩ := h
  subst hout
  simp [← hlen, localFileHeader_length]

/-! ## The stream invariant and its preservation -/

theorem goodState_init : GoodState initState := by
  constructor <;> simp [initState, entryAt]

theorem goodState_commitEntry (s : StreamState) (t : Ticket) (m v : Nat)
    (data : Bytes) (ht : TicketWf t) (hs : GoodState s) :
    GoodState (commitEntry s t m v data) := by
  obtain ⟨hlen, hat, hflag, hpair⟩ := hs
  have ht' : t.nameLength = t.nameBytes.length := ht
  rw [commitEntry_eq]
  unfold GoodState
  dsimp only
  refine ⟨?_, ?_, ?_, ?_⟩
  · simp [List.length_append, localFileHeader_length, committedEntry, hlen, ht', FIXED_LFH_SIZE]
    omega
  · intro e he
    rcases List.mem_append.1 he with h | h
    · have h2 := hat e h
      have h3 := entryAt_append s.output
        (localFileHeader (committedEntry s t m v data) ++ t.nameBytes ++ data) e h2
      simpa [List.append_assoc] using h3
    · rcases List.mem_singleton.1 h with rfl
      refine ⟨s.output, data, ?_, ?_⟩
      · simp [committedEntry, List.append_assoc]
      · simp [committedEntry, hlen]
  · intro e he
    rcases List.mem_append.1 he with h | h
    · exact hflag e h
    · rcases List.mem_singleton.1 h with rfl
      rfl
  · rw [List.pairwise_append]
    refine ⟨hpair, by simp, ?_⟩
    intro a ha b hb
    rcases List.mem_singleton.1 hb with rfl
    have h4 := entryAt_lt_length _ _ (hat a ha)
    simp only [committedEntry]
    omega

theorem goodState_names (s : StreamState) (ns : List (List Char))
    (hs : GoodState s) : GoodState { s with names := ns } := hs

theorem goodState_writeFileStart (s : StreamState) (c : WriteCall)
    (hs : GoodState s) : GoodState (writeFileStart s c).1 := by
  unfold writeFileStart
  split
  · exact hs
  · dsimp only
    split
    · exact hs
    · split
      · exact hs
      · split
        · exact hs
        · split
          · exact hs
          · split
            · exact hs
            · exact goodState_commitEntry _ _ _ _ _ rfl hs

theorem writeFileStart_pending_wf (s : StreamState) (c : WriteCall) (t : Ticket)
    (h : (writeFileStart s c).2 = .pending t) : TicketWf t := by
  unfold writeFileStart at h
  repeat' split at h
  all_goals simp only [apply_ite Prod.snd] at h
  all_goals repeat' split at h
  all_goals first
    | (injection h with h2
       exact h2 ▸ rfl)
    | injection h

theorem goodState_writeFileResume (s : StreamState) (t : Ticket)
    (ht : TicketWf t) (hs : GoodState s) : GoodState (writeFileResume s t).1 := by
  unfold writeFileResume
  split
  · exact hs
  · split
    · exact hs
    · exact goodState_commitEntry _ _ _ _ _ ht hs

theorem goodState_issuePhase (cs : List WriteCall) :
    ∀ s : StreamState, GoodState s →
      GoodState (issuePhase s cs).1 ∧ ∀ t ∈ (issuePhase s cs).2, TicketWf t := by
  induction cs with
  | nil =>
    intro s hs
    exact ⟨hs, by simp [issuePhase]⟩
  | cons c cs ih =>
    intro s hs
    have h1 := goodState_writeFileStart s c hs
    unfold issuePhase
    rcases hr : writeFileStart s c with ⟨s1, r⟩
    rw [hr] at h1
    obtain ⟨ih1, ih2⟩ := ih s1 h1
    cases r with
    | pending t =>
      have hwf : TicketWf t := writeFileStart_pending_wf s c t (by rw [hr])
      dsimp only
      rcases hI : issuePhase s1 cs with ⟨s2, ts⟩
      rw [hI] at ih1 ih2
      refine ⟨ih1, ?_⟩
      intro t2 ht2
      rcases List.mem_cons.1 ht2 with rfl | hmem
      · exact hwf
      · exact ih2 t2 hmem
    | failed msg => exact ⟨ih1, ih2⟩
    | committed => exact ⟨ih1, ih2⟩

theorem goodState_foldlResume (ts : List Ticket) :
    ∀ s : StreamState, GoodState s → (∀ t ∈ ts, TicketWf t) →
      GoodState (ts.foldl (fun s t => (writeFileResume s t).1) s) := by
  induction ts with
  | nil =>
    intro s hs _
    simpa using hs
  | cons t ts ih =>
    intro s hs hw
    simp only [List.foldl_cons]
    exact ih _ (goodState_writeFileResume s t (hw t (by simp)) hs)
      fun t2 h2 => hw t2 (by simp [h2])

theorem goodState_resolvePhase (sched : List Nat) :
    ∀ (s : StreamState) (ts : List Ticket), GoodState s → (∀ t ∈ ts, TicketWf t) →
      GoodState (resolvePhase s ts sched) := by
  induction sched with
  | nil =>
    intro s ts hs hw
    exact goodState_foldlResume ts s hs hw
  | cons i rest ih =>
    intro s ts hs hw
    unfold resolvePhase
    rcases hI : ts[i]? with _ | t
    · exact ih s ts hs hw
    · have htmem : t ∈ ts := List.getElem?_mem hI
      exact ih _ _ (goodState_writeFileResume s t (hw t htmem) hs)
        fun t2 h2 => hw t2 ((List.eraseIdx_sublist ts i).subset h2)

theorem goodState_preFlush (calls : List WriteCall) (sched : List Nat) :
    GoodState (preFlush calls sched) := by
  unfold preFlush
  rcases hI : issuePhase initState calls with ⟨s, ts⟩
  have h := goodState_issuePhase calls initState goodState_init
  rw [hI] at h
  exact goodState_resolvePhase sched s ts h.1 h.2

/-! ## What `_flush` does -/

theorem cdSizeOf_cons (e : ZipEntry) (rest : List ZipEntry) :
    cdSizeOf (e :: rest) = FIXED_CDH_SIZE + e.nameLength + cdSizeOf rest := by
  simp [cdSizeOf]

theorem centralDirBytes_cons (e : ZipEntry) (rest : List ZipEntry) :
    centralDirBytes (e :: rest) =
      (centralDirHeader e ++ e.name) ++ centralDirBytes rest := by
  simp [centralDirBytes, centralDirChunk]

theorem foldl_flushCentralDirHeader (entries : List ZipEntry) :
    ∀ s : StreamState,
      entries.foldl flushCentralDirHeader s =
        { s with
          output := s.output ++ centralDirBytes entries
          byteOffset := s.byteOffset + cdSizeOf entries } := by
  induction entries with
  | nil =>
    intro s
    simp [centralDirBytes, cdSizeOf]
  | cons e rest ih =>
    intro s
    simp only [List.foldl_cons, ih, flushCentralDirHeader, cdSizeOf_cons,
      centralDirBytes_cons, StreamState.mk.injEq, true_and, and_true]
    refine ⟨by omega, by simp [List.append_assoc]⟩

theorem flushPhase_entries (s : StreamState) : (flushPhase s).entries = s.entries := by
  unfold flushPhase flushEndOfCentralDirRecord
  by_cases h1 : s.byteOffset > MAX32
  · simp [h1]
  · by_cases h2 : s.entries.length > MAX16
    · simp [h1, h2]
    · rw [if_neg h1, if_neg h2, foldl_flushCentralDirHeader]
      dsimp only
      split <;> rfl

theorem flushPhase_output (s : StreamState) :
    (flushPhase s).output = s.output ++ flushAppend s := by
  unfold flushPhase flushAppend flushEndOfCentralDirRecord
  by_cases h1 : s.byteOffset > MAX32
  · simp [h1]
  · by_cases h2 : s.entries.length > MAX16
    · simp [h1, h2]
    · rw [if_neg h1, if_neg h2, if_neg h1, if_neg h2, foldl_flushCentralDirHeader]
      dsimp only
      rw [Nat.add_sub_cancel_left]
      split <;> simp [List.append_assoc]

theorem flushPhase_errored (s : StreamState) :
    (flushPhase s).errored =
      (s.errored || decide (s.byteOffset > MAX32) || decide (s.entries.length > MAX16) ||
        decide (cdSizeOf s.entries > MAX32)) := by
  unfold flushPhase flushEndOfCentralDirRecord
  by_cases h1 : s.byteOffset > MAX32
  · simp [h1]
  · by_cases h2 : s.entries.length > MAX16
    · simp [h1, h2]
    · rw [if_neg h1, if_neg h2, foldl_flushCentralDirHeader]
      dsimp only
      rw [Nat.add_sub_cancel_left]
      by_cases h3 : cdSizeOf s.entries > MAX32 <;> simp [h1, h2, h3]

theorem flushPhase_eq (s : StreamState) (h1 : ¬s.byteOffset > MAX32)
    (h2 : ¬s.entries.length > MAX16) (h3 : ¬cdSizeOf s.entries > MAX32) :
    flushPhase s =
      { s with
        output := s.output ++ centralDirBytes s.entries ++
          endOfCentralDirRecord s.entries.length (cdSizeOf s.entries) s.byteOffset
        byteOffset := s.byteOffset + cdSizeOf s.entries + FIXED_EOCDR_SIZE } := by
  unfold flushPhase flushEndOfCentralDirRecord
  rw [if_neg h1, if_neg h2, foldl_flushCentralDirHeader]
  dsimp only
  rw [Nat.add_sub_cancel_left]
  rw [if_neg h3]

/-! ## Name validation facts -/

theorem posixNormalize_ne_nil (cs : List Char) : posixNormalize cs ≠ [] := by
  unfold posixNormalize
  split
  · simp
  · dsimp only
    split
    · split
      · simp
      · split <;> simp
    · split <;> split <;> simp_all

/-- C6: `writeFile`'s name validation first converts backslashes to forward
slashes and applies posix-style normalization collapsing `.`/`..` segments,
then fails with an invalid-name error exactly when the result is empty, is
`.`, is `..`, starts with `/`, starts with `../`, ends with `/`, or matches
a drive-letter prefix `[A-Za-z]:`; a call whose name fails this validation
leaves the stream untouched (no bytes are written for that entry), and the
names `/abs`, `../parent`, `dir/` and `C:\drive` are all rejected. -/
theorem c6_name_validation :
    (∀ name : List Char,
      (normalizeFilename name = Except.error "Invalid file name" ↔
        (let r := posixNormalize (name.map fun c => if c = '\\' then '/' else c)
         r = [] ∨ r = ['.'] ∨ r = ['.', '.'] ∨ ['/'].isPrefixOf r ∨
           ['.', '.', '/'].isPrefixOf r ∨ ['/'].isSuffixOf r ∨ PATTERN_DRIVE r))) ∧
    (∀ (s : StreamState) (c : WriteCall) (msg : String),
      normalizeFilename c.name = Except.error msg →
        writeFileStart s c = (s, .failed msg)) ∧
    normalizeFilename "/abs".toList = Except.error "Invalid file name" ∧
    normalizeFilename "../parent".toList = Except.error "Invalid file name" ∧
    normalizeFilename "dir/".toList = Except.error "Invalid file name" ∧
    normalizeFilename "C:\\drive".toList = Except.error "Invalid file name" := by
  refine ⟨?_, ?_, by decide, by decide, by decide, by decide⟩
  · intro name
    have hne := posixNormalize_ne_nil (name.map fun c => if c = '\\' then '/' else c)
    unfold normalizeFilename
    dsimp only
    split
    · rename_i hcond
      constructor
      · intro _
        tauto
      · intro _
        rfl
    · rename_i hcond
      constructor
      · intro h
        exact absurd h (by simp)
      · intro h
        exfalso
        tauto
  · intro s c msg h
    unfold writeFileStart
    rw [h]

/-- Witness for C6: the concrete call `writeFile('/abs', ...)` is rejected
with the invalid-name error and the stream state is unchanged. -/
theorem c6_witness :
    writeFileStart initState
      { name := "/abs".toList
        data := []
        compress := false
        lastModified := .packed 2162688
        deflated := .ok [] } =
      (initState, .failed "Invalid file name") :=
  c6_name_validation.2.1 initState _ "Invalid file name" (by decide)

/-- C7: `dateToDosDateTime` returns exactly
`(year-1980)*2^25 + month*2^21 + day*2^16 + hour*2^11 + minute*2^5 +
floor(second/2)` with `month` the 1-based calendar month (`getMonth` is
0-based, so `month = getMonth + 1`), computed with exact integer
arithmetic (no 32-bit truncation anywhere); and, all other validations
passing, `writeFile` accepts a numeric `lastModified` exactly when it lies
in `[0x00210000, 0xff9fbf7d]`, failing with the range error otherwise. -/
theorem c7_datetime :
    (∀ d : DateLike,
      dateToDosDateTime d =
        (d.getFullYear - 1980) * 2 ^ 25 + (d.getMonth + 1) * 2 ^ 21 +
        d.getDate * 2 ^ 16 + d.getHours * 2 ^ 11 + d.getMinutes * 2 ^ 5 +
        Int.tdiv d.getSeconds 2) ∧
    (∀ d : DateLike, 0 ≤ d.getSeconds → Int.tdiv d.getSeconds 2 = d.getSeconds / 2) ∧
    (∀ (s : StreamState) (c : WriteCall) (nm : List Char) (v : Int),
      normalizeFilename c.name = Except.ok nm →
      nm ∉ s.names →
      ¬(utf8Bytes nm).length > MAX16 →
      ¬c.data.length > MAX32 →
      c.lastModified = .packed v →
      ((writeFileStart s c).2 = .failed "Invalid date/time" ↔
        (v < (DATETIME_MIN : Nat) ∨ v > (DATETIME_MAX : Nat)))) := by
  refine ⟨fun d => rfl, ?_, ?_⟩
  · intro d hd
    exact Int.tdiv_eq_ediv hd (by norm_num)
  · intro s c nm v h1 h2 h3 h4 h5
    unfold writeFileStart
    rw [h1]
    dsimp only
    rw [if_neg h2, if_neg h3, if_neg h4, h5]
    dsimp only
    by_cases hv : v < ((DATETIME_MIN : Nat) : Int) ∨ v > ((DATETIME_MAX : Nat) : Int)
    · rw [if_pos hv]
      simpa using hv
    · rw [if_neg hv]
      simp only [apply_ite Prod.snd]
      constructor
      · intro hcontra
        split at hcontra <;> cases hcontra
      · intro hh
        exact absurd hh hv

/-- Witness for C7: the packed value `0` (below `0x00210000`) is rejected
with the date range error. -/
theorem c7_witness :
    (writeFileStart initState (datedCall 0)).2 = .failed "Invalid date/time" :=
  (c7_datetime.2.2 initState (datedCall 0) ['a'] 0 (by decide) (by decide)
    (by decide) (by decide) rfl).mpr (by decide)

/-! ## Failure-path characterizations of `writeFile` -/

theorem writeFileStart_cases (s : StreamState) (c : WriteCall) :
    (∃ msg, writeFileStart s c = (s, .failed msg)) ∨
    ∀ msg, (writeFileStart s c).2 ≠ .failed msg := by
  simp only [writeFileStart]
  repeat' split
  all_goals first
    | exact .inl ⟨_, rfl⟩
    | exact .inr fun msg h => by injection h

theorem writeFileResume_cases (s : StreamState) (t : Ticket) :
    (∃ msg, writeFileResume s t = ({ s with names := s.names.erase t.name }, some msg)) ∨
    (writeFileResume s t).2 = none := by
  unfold writeFileResume
  repeat' split
  all_goals first
    | exact .inl ⟨_, rfl⟩
    | exact .inr rfl

/-- C8 (amended): a failing `writeFile` call emits no bytes and adds no
entry and no registration: a synchronous failure returns the stream state
completely unchanged, and an asynchronous failure (compressor error or
oversized compressed payload) changes nothing except removing the name the
call itself had reserved; after such an asynchronous failure, a retry with
the same name is not rejected as a duplicate provided no other live call
still holds that name.  (A call that fails BECAUSE the name is a duplicate
leaves the original owner's registration in place, so a retry of the
duplicate still fails - the counterexample shows the claim's blanket
"retry succeeds" wording is wrong for that case.) -/
theorem c8_failure_rollback :
    (∀ (s : StreamState) (c : WriteCall) (msg : String),
      (writeFileStart s c).2 = .failed msg → (writeFileStart s c).1 = s) ∧
    (∀ (s : StreamState) (t : Ticket) (msg : String),
      (writeFileResume s t).2 = some msg →
        (writeFileResume s t).1 = { s with names := s.names.erase t.name }) ∧
    (∀ (s : StreamState) (t : Ticket) (msg : String) (c : WriteCall),
      (writeFileResume s t).2 = some msg →
      t.name ∉ s.names.erase t.name →
      normalizeFilename c.name = Except.ok t.name →
      (writeFileStart (writeFileResume s t).1 c).2 ≠ .failed "Duplicated file name") := by
  refine ⟨?_, ?_, ?_⟩
  · intro s c msg h
    rcases writeFileStart_cases s c with ⟨m, hEq⟩ | hne
    · rw [hEq]
    · exact absurd h (hne msg)
  · intro s t msg h
    rcases writeFileResume_cases s t with ⟨m, hEq⟩ | hnone
    · rw [hEq]
    · rw [h] at hnone
      exact Option.noConfusion hnone
  · intro s t msg c hfail hnotin hnorm
    rcases writeFileResume_cases s t with ⟨m, hEq⟩ | hnone
    · rw [hEq]
      dsimp only
      simp only [writeFileStart, hnorm]
      rw [if_neg hnotin]
      repeat' split
      all_goals intro h
      all_goals first
        | (injection h with hm
           exact absurd hm (by decide))
        | injection h
    · rw [hfail] at hnone
      exact Option.noConfusion hnone

/-- C8 counterexample: `writeFile('a')` succeeds, a second `writeFile('a')`
fails with the duplicate-name error - and contrary to the claim, the name
is still registered after that failure, so a third `writeFile('a')` fails
with the duplicate-name error again. -/
theorem c8_counterexample :
    (writeFileStart (writeFileStart initState storedA).1 storedA).2 =
      .failed "Duplicated file name" ∧
    (writeFileStart (writeFileStart (writeFileStart initState storedA).1 storedA).1
      storedA).2 = .failed "Duplicated file name" := by
  decide

/-- Witness for C8 (amended): a concrete compressor failure leaves
everything unchanged except its own reservation, which is released. -/
theorem c8_witness :
    (writeFileResume initState failTicket).1 =
      { initState with names := initState.names.erase ['a'] } :=
  c8_failure_rollback.2.1 initState failTicket "compressor failure" (by decide)

/-- C9: `_flush` (run by `end()`) fails fatally exactly when `byteOffset >
0xFFFFFFFF`, or `entries.length > 0xFFFF`, or the central directory size
(the `byteOffset` delta across the directory, `cdSizeOf`) exceeds
`0xFFFFFFFF`; otherwise it appends one central directory header per entry
in `entries` order followed by the end record carrying
`totalEntries = entries.length`, `cdSize = byteOffset - cdStart` (which
equals `cdSizeOf entries`) and `cdOffset = cdStart`. -/
theorem c9_finalize_limits (s : StreamState) (h : s.errored = false) :
    ((flushPhase s).errored = true ↔
      s.byteOffset > MAX32 ∨ s.entries.length > MAX16 ∨ cdSizeOf s.entries > MAX32) ∧
    ((flushPhase s).errored = false →
      (flushPhase s).output = s.output ++ centralDirBytes s.entries ++
        endOfCentralDirRecord s.entries.length (cdSizeOf s.entries) s.byteOffset ∧
      (flushPhase s).byteOffset = s.byteOffset + cdSizeOf s.entries + FIXED_EOCDR_SIZE) := by
  constructor
  · rw [flushPhase_errored, h]
    simp [or_assoc]
  · intro hok
    rw [flushPhase_errored, h] at hok
    simp only [Bool.false_or, Bool.or_eq_false_iff, decide_eq_false_iff_not] at hok
    obtain ⟨⟨h1, h2⟩, h3⟩ := hok
    rw [flushPhase_eq s h1 h2 h3]
    exact ⟨rfl, rfl⟩

/-- Witness for C9: on a fresh stream the limit checks pass and `_flush`
emits the central directory (empty) followed by the end record. -/
theorem c9_witness :
    (flushPhase initState).output =
      initState.output ++ centralDirBytes initState.entries ++
        endOfCentralDirRecord initState.entries.length (cdSizeOf initState.entries)
          initState.byteOffset :=
  ((c9_finalize_limits initState rfl).2 (by decide)).1

/-- C10: `end()` on a fresh `ZipStream` emits exactly the 22-byte
end-of-central-directory record with `entriesOnDisk = totalEntries = 0`,
`cdSize = 0` and `cdOffset = 0`, and resolves with 22. -/
theorem c10_empty_archive :
    (runZipStream [] []).output =
      [0x50, 0x4b, 0x05, 0x06, 0, 0, 0, 0, 0, 0, 0, 0, 0, 0, 0, 0, 0, 0, 0, 0, 0, 0] ∧
    (runZipStream [] []).output = endOfCentralDirRecord 0 0 0 ∧
    (runZipStream [] []).output.length = 22 ∧
    (runZipStream [] []).byteOffset = 22 ∧
    (runZipStream [] []).errored = false := by
  decide

/-- C3 counterexample: a stored `writeFile` whose commit point is reached
with `byteOffset` already above `0xFFFFFFFF` DOES emit its local header,
name and payload and DOES append its record - the code only emits the
stream error (there is no `return` after the `emit` on line 137). -/
theorem c3_counterexample :
    (writeFileStart overflowState storedA).1.errored = true ∧
    (writeFileStart overflowState storedA).1.entries.length = 1 ∧
    (writeFileStart overflowState storedA).1.output ≠ [] := by
  decide

/-- C3 (amended): when a `writeFile` call's commit point is reached with
`byteOffset` above `0xFFFFFFFF`, the stream emits a fatal error event - but
the entry's local header, name and payload bytes are still written to the
sink and its `EntryRecord` is still appended to `entries`; the archive then
fails as a whole only because `end()`'s `_flush` sees the oversized offset,
errors fatally, and writes nothing (no central directory, no end record). -/
theorem c3_overflow_commit (s : StreamState) (t : Ticket) (m v : Nat)
    (data : Bytes) (h : s.byteOffset > MAX32) :
    (commitEntry s t m v data).errored = true ∧
    (commitEntry s t m v data).entries = s.entries ++ [committedEntry s t m v data] ∧
    (commitEntry s t m v data).output =
      s.output ++ localFileHeader (committedEntry s t m v data) ++ t.nameBytes ++ data ∧
    ∀ s2 : StreamState, s2.byteOffset > MAX32 →
      (flushPhase s2).errored = true ∧ (flushPhase s2).output = s2.output := by
  rw [commitEntry_eq]
  refine ⟨by simp [h], rfl, rfl, ?_⟩
  intro s2 h2
  unfold flushPhase
  rw [if_pos h2]
  exact ⟨rfl, rfl⟩

/-- Witness for C3 (amended): a concrete overflowed stream still commits
the entry and flags the stream as errored. -/
theorem c3_witness :
    (commitEntry overflowState failTicket METHOD_STORE VERSION_STORE [7]).errored = true :=
  (c3_overflow_commit overflowState failTicket METHOD_STORE VERSION_STORE [7] (by decide)).1

/-- C2: `end()` awaits `Promise.all(this.promises)` before `super.end()`
triggers `_flush`; each `writeFile`'s own continuation reacts to its
compression promise first, so every outstanding call commits (or fails)
before `_flush` runs.  In the model every pending continuation settles in
`resolvePhase` before `flushPhase`, and `_flush` only ever appends central
directory headers and the end record: the final output is the pre-flush
output - which already contains every committed entry's local header, name
and payload at its recorded offset - followed by `flushAppend`, and
`_flush` adds no entries.  Hence no entry's local header, name or payload
bytes are emitted after the central directory has been written. -/
theorem c2_end_drains_before_flush (calls : List WriteCall) (sched : List Nat) :
    (runZipStream calls sched).output =
      (preFlush calls sched).output ++ flushAppend (preFlush calls sched) ∧
    (runZipStream calls sched).entries = (preFlush calls sched).entries ∧
    ∀ e ∈ (preFlush calls sched).entries, entryAt (preFlush calls sched).output e :=
  ⟨flushPhase_output _, flushPhase_entries _, (goodState_preFlush calls sched).2.1⟩

/-- Witness for C2: in the concrete `hello.txt` session the single
committed entry's bytes sit at offset 0 of the pre-flush output. -/
theorem c2_witness :
    entryAt (preFlush [helloCall 2162688] []).output helloEntry :=
  (c2_end_drains_before_flush [helloCall 2162688] []).2.2 helloEntry (by decide)

/-- C1 counterexample: calls `a` then `b` are issued in that order, both
compressing; `b`'s compression settles first (schedule `[1]`).  The first
entry committed - and the first local header in the sink, whose name byte
at offset 30 is `98` = `'b'` - belongs to `b`, not `a`: local headers land
in compression-completion order, not call-issue order. -/
theorem c1_counterexample :
    ((preFlush [callA, callB] [1]).entries.map fun e => e.name) = [[98], [97]] ∧
    ((preFlush [callA, callB] [1]).output.drop 30).take 1 = [98] := by
  decide

/-- C1 (amended): local headers are written in commit order - stored
entries at call time, compressed entries in the order their compressions
settle (the schedule), which need not be call-issue order.  `entries`
records exactly that commit order: each entry's local header, name and
payload sit in the sink at its recorded `byteOffset`, those offsets
strictly increase along `entries` (so the list order matches the physical
layout), and on a clean finalize the archive is the pre-flush bytes
followed by one central directory header per entry in that same order plus
the end record, each central header carrying `u32le e.byteOffset` in its
local-header-offset field (bytes 42-45). -/
theorem c1_commit_order (calls : List WriteCall) (sched : List Nat)
    (hok : (runZipStream calls sched).errored = false) :
    (∀ e ∈ (preFlush calls sched).entries, entryAt (preFlush calls sched).output e) ∧
    ((preFlush calls sched).entries.Pairwise fun a b => a.byteOffset < b.byteOffset) ∧
    (runZipStream calls sched).entries = (preFlush calls sched).entries ∧
    (runZipStream calls sched).output =
      (preFlush calls sched).output ++
        centralDirBytes (preFlush calls sched).entries ++
        endOfCentralDirRecord (preFlush calls sched).entries.length
          (cdSizeOf (preFlush calls sched).entries) (preFlush calls sched).byteOffset ∧
    (∀ e : ZipEntry, ((centralDirHeader e).drop 42).take 4 = u32le e.byteOffset) := by
  obtain ⟨hlen, hat, hflag, hpair⟩ := goodState_preFlush calls sched
  unfold runZipStream at hok ⊢
  rw [flushPhase_errored] at hok
  simp only [Bool.or_eq_false_iff, decide_eq_false_iff_not] at hok
  obtain ⟨⟨⟨h0, h1⟩, h2⟩, h3⟩ := hok
  refine ⟨hat, hpair, flushPhase_entries _, ?_, ?_⟩
  · rw [flushPhase_eq _ h1 h2 h3]
  · intro e
    rfl

/-- Witness for C1 (amended): the two-call schedule-inverted session
finalizes cleanly and its archive trailer is the central directory over the
committed entries in commit order. -/
theorem c1_witness :
    (runZipStream [callA, callB] [1]).entries = (preFlush [callA, callB] [1]).entries :=
  (c1_commit_order [callA, callB] [1] (by decide)).2.2.1

/-- C4: every record is serialized at its exact fixed size, signature and
little-endian layout.  The local file header is exactly 30 bytes with
signature `0x04034b50` and fields version@4:2, flags@6:2, method@8:2,
dosDateTime@10:4, crc32@14:4, sizeCompressed@18:4, sizeUncompressed@22:4,
nameLen@26:2, extraLen@28:2 (= 0); the central directory header is 46 bytes
with signature `0x02014b50`, versionMadeBy = 63, and zero extra-field,
comment, disk and attribute fields; the end record is 22 bytes with
signature `0x06054b50`, zero disk fields and zero comment length; and every
entry any session ever commits carries flag `0x0800` (bit 11, UTF-8 names)
in both headers. -/
theorem c4_header_layout :
    (∀ e : ZipEntry,
      (localFileHeader e).length = 30 ∧
      (localFileHeader e).take 4 = u32le 0x04034b50 ∧
      ((localFileHeader e).drop 4).take 2 = u16le e.version ∧
      ((localFileHeader e).drop 6).take 2 = u16le e.flag ∧
      ((localFileHeader e).drop 8).take 2 = u16le e.method ∧
      ((localFileHeader e).drop 10).take 4 = u32le e.lastModified ∧
      ((localFileHeader e).drop 14).take 4 = u32le e.crc ∧
      ((localFileHeader e).drop 18).take 4 = u32le e.sizeCompressed ∧
      ((localFileHeader e).drop 22).take 4 = u32le e.sizeUncompressed ∧
      ((localFileHeader e).drop 26).take 2 = u16le e.nameLength ∧
      ((localFileHeader e).drop 28).take 2 = u16le 0) ∧
    (∀ e : ZipEntry,
      (centralDirHeader e).length = 46 ∧
      (centralDirHeader e).take 4 = u32le 0x02014b50 ∧
      ((centralDirHeader e).drop 4).take 2 = u16le VERSION_MADE_BY ∧
      ((centralDirHeader e).drop 6).take 2 = u16le e.version ∧
      ((centralDirHeader e).drop 8).take 2 = u16le e.flag ∧
      ((centralDirHeader e).drop 10).take 2 = u16le e.method ∧
      ((centralDirHeader e).drop 12).take 4 = u32le e.lastModified ∧
      ((centralDirHeader e).drop 16).take 4 = u32le e.crc ∧
      ((centralDirHeader e).drop 20).take 4 = u32le e.sizeCompressed ∧
      ((centralDirHeader e).drop 24).take 4 = u32le e.sizeUncompressed ∧
      ((centralDirHeader e).drop 28).take 2 = u16le e.nameLength ∧
      ((centralDirHeader e).drop 30).take 2 = u16le 0 ∧
      ((centralDirHeader e).drop 32).take 2 = u16le 0 ∧
      ((centralDirHeader e).drop 34).take 2 = u16le 0 ∧
      ((centralDirHeader e).drop 36).take 2 = u16le 0 ∧
      ((centralDirHeader e).drop 38).take 4 = u32le 0 ∧
      ((centralDirHeader e).drop 42).take 4 = u32le e.byteOffset) ∧
    (∀ n c o : Nat,
      (endOfCentralDirRecord n c o).length = 22 ∧
      (endOfCentralDirRecord n c o).take 4 = u32le 0x06054b50 ∧
      ((endOfCentralDirRecord n c o).drop 4).take 2 = u16le 0 ∧
      ((endOfCentralDirRecord n c o).drop 6).take 2 = u16le 0 ∧
      ((endOfCentralDirRecord n c o).drop 8).take 2 = u16le n ∧
      ((endOfCentralDirRecord n c o).drop 10).take 2 = u16le n ∧
      ((endOfCentralDirRecord n c o).drop 12).take 4 = u32le c ∧
      ((endOfCentralDirRecord n c o).drop 16).take 4 = u32le o ∧
      ((endOfCentralDirRecord n c o).drop 20).take 2 = u16le 0) ∧
    (∀ (calls : List WriteCall) (sched : List Nat),
      ∀ e ∈ (runZipStream calls sched).entries,
        e.flag = FLAG_UTF8 ∧ Nat.testBit e.flag 11 = true) := by
  refine ⟨?_, ?_, ?_, ?_⟩
  · intro e
    simp only [localFileHeader, u16le, u32le, List.cons_append, List.nil_append]
    exact ⟨rfl, rfl, rfl, rfl, rfl, rfl, rfl, rfl, rfl, rfl, rfl⟩
  · intro e
    simp only [centralDirHeader, u16le, u32le, List.cons_append, List.nil_append]
    exact ⟨rfl, rfl, rfl, rfl, rfl, rfl, rfl, rfl, rfl, rfl, rfl,
      rfl, rfl, rfl, rfl, rfl, rfl⟩
  · intro n c o
    simp only [endOfCentralDirRecord, u16le, u32le, List.cons_append, List.nil_append]
    exact ⟨rfl, rfl, rfl, rfl, rfl, rfl, rfl, rfl, rfl⟩
  · intro calls sched e he
    rw [runZipStream, flushPhase_entries] at he
    have hf := (goodState_preFlush calls sched).2.2.1 e he
    exact ⟨hf, by rw [hf]; decide⟩

/-- Witness for C4: the concrete `hello.txt` entry is committed with the
UTF-8 flag set, and its local header has the exact layout. -/
theorem c4_witness :
    (localFileHeader helloEntry).length = 30 ∧ Nat.testBit helloEntry.flag 11 = true :=
  ⟨(c4_header_layout.1 helloEntry).1,
   (c4_header_layout.2.2.2 [helloCall 2162688] [] helloEntry (by decide)).2⟩

/-- A successful `writeFile` call with `compress: false` commits
immediately: explicit form of the resulting state. -/
theorem writeFileStart_stored (s : StreamState) (c : WriteCall) (nm : List Char)
    (v : Int)
    (hn : normalizeFilename c.name = Except.ok nm)
    (hd : nm ∉ s.names)
    (hl : ¬(utf8Bytes nm).length > MAX16)
    (hz : ¬c.data.length > MAX32)
    (hm : c.lastModified = .packed v)
    (hv : ¬(v < ((DATETIME_MIN : Nat) : Int) ∨ v > ((DATETIME_MAX : Nat) : Int)))
    (hc : c.compress = false) :
    writeFileStart s c =
      (commitEntry { s with names := nm :: s.names }
        { name := nm
          nameBytes := utf8Bytes nm
          nameLength := (utf8Bytes nm).length
          sizeUncompressed := c.data.length
          dosDateTime := v.toNat
          crc := crc32 c.data
          deflated := c.deflated }
        METHOD_STORE VERSION_STORE c.data, .committed) := by
  simp only [writeFileStart, hn, hm, hc]
  rw [if_neg hd, if_neg hl, if_neg hz, if_neg hv]
  simp

theorem commitEntry_entries (s : StreamState) (t : Ticket) (m v : Nat) (d : Bytes) :
    (commitEntry s t m v d).entries = s.entries ++ [committedEntry s t m v d] := by
  rw [commitEntry_eq]

theorem commitEntry_byteOffset (s : StreamState) (t : Ticket) (m v : Nat) (d : Bytes) :
    (commitEntry s t m v d).byteOffset =
      s.byteOffset + FIXED_LFH_SIZE + t.nameLength + d.length := by
  rw [commitEntry_eq]

theorem commitEntry_output (s : StreamState) (t : Ticket) (m v : Nat) (d : Bytes) :
    (commitEntry s t m v d).output =
      s.output ++ localFileHeader (committedEntry s t m v d) ++ t.nameBytes ++ d := by
  rw [commitEntry_eq]

theorem commitEntry_errored (s : StreamState) (t : Ticket) (m v : Nat) (d : Bytes) :
    (commitEntry s t m v d).errored = (s.errored || decide (s.byteOffset > MAX32)) := by
  rw [commitEntry_eq]

/-- A single `writeFile` call that commits synchronously, followed by
`end()` with nothing pending: the pre-flush state is that call's result. -/
theorem preFlush_single_committed (c : WriteCall) (s1 : StreamState)
    (h : writeFileStart initState c = (s1, .committed)) :
    preFlush [c] [] = s1 := by
  unfold preFlush issuePhase
  rw [h]
  rfl

/-- C5: the single call `writeFile('hello.txt', b'hi', {compress: false})`
followed by `end()`, for any valid packed timestamp (the default is "now",
whichever valid moment that is): the committed entry has method 0 (stored),
version 10, crc = CRC32 of the two bytes `hi`, and
sizeCompressed = sizeUncompressed = 2; `end()` resolves with
118 = 30 + 9 + 2 + 46 + 9 + 22, which also equals the total number of
bytes emitted to the sink. -/
theorem c5_hello_scenario (lm : Nat) (h1 : DATETIME_MIN ≤ lm) (h2 : lm ≤ DATETIME_MAX) :
    (runZipStream [helloCall lm] []).byteOffset = 118 ∧
    (runZipStream [helloCall lm] []).output.length = 118 ∧
    (runZipStream [helloCall lm] []).errored = false ∧
    ∃ e : ZipEntry, (runZipStream [helloCall lm] []).entries = [e] ∧
      e.method = METHOD_STORE ∧ e.version = VERSION_STORE ∧
      e.crc = crc32 [104, 105] ∧ e.sizeCompressed = 2 ∧ e.sizeUncompressed = 2 := by
  have hdate : ¬(((lm : Nat) : Int) < ((DATETIME_MIN : Nat) : Int) ∨
      ((lm : Nat) : Int) > ((DATETIME_MAX : Nat) : Int)) := by
    push_neg
    exact ⟨by exact_mod_cast h1, by exact_mod_cast h2⟩
  have hW := writeFileStart_stored initState (helloCall lm)
    ['h', 'e', 'l', 'l', 'o', '.', 't', 'x', 't'] ((lm : Nat) : Int)
    (by decide :
      normalizeFilename ['h', 'e', 'l', 'l', 'o', '.', 't', 'x', 't'] =
        Except.ok ['h', 'e', 'l', 'l', 'o', '.', 't', 'x', 't'])
    (by decide)
    (by decide :
      ¬(utf8Bytes ['h', 'e', 'l', 'l', 'o', '.', 't', 'x', 't']).length > MAX16)
    (by decide : ¬(List.length ([104, 105] : Bytes)) > MAX32)
    rfl hdate rfl
  have hpre := preFlush_single_committed (helloCall lm) _ hW
  have hb : (preFlush [helloCall lm] []).byteOffset = 41 := by
    rw [hpre, commitEntry_byteOffset]
    simp [initState, helloCall, FIXED_LFH_SIZE,
      (by decide : (utf8Bytes ['h', 'e', 'l', 'l', 'o', '.', 't', 'x', 't']).length = 9)]
  have herr : (preFlush [helloCall lm] []).errored = false := by
    rw [hpre, commitEntry_errored]
    decide
  have hent : (preFlush [helloCall lm] []).entries =
      [{ byteOffset := 0
         crc := crc32 [104, 105]
         flag := FLAG_UTF8
         lastModified := lm
         method := METHOD_STORE
         name := utf8Bytes ['h', 'e', 'l', 'l', 'o', '.', 't', 'x', 't']
         nameLength := 9
         sizeCompressed := 2
         sizeUncompressed := 2
         version := VERSION_STORE }] := by
    rw [hpre, commitEntry_entries]
    simp [committedEntry, initState, helloCall, Int.toNat_natCast,
      (by decide : (utf8Bytes ['h', 'e', 'l', 'l', 'o', '.', 't', 'x', 't']).length = 9)]
  have hlen9 : (utf8Bytes ['h', 'e', 'l', 'l', 'o', '.', 't', 'x', 't']).length = 9 := by
    decide
  have hlenpre : (preFlush [helloCall lm] []).output.length = 41 := by
    rw [hpre, commitEntry_output]
    simp [List.length_append, localFileHeader_length, initState, helloCall, hlen9]
  have hcd : cdSizeOf (preFlush [helloCall lm] []).entries = 55 := by
    rw [hent]
    norm_num [cdSizeOf, FIXED_CDH_SIZE]
  have hflush := flushPhase_eq (preFlush [helloCall lm] [])
    (by rw [hb]; decide) (by rw [hent]; norm_num [MAX16]) (by rw [hcd]; decide)
  refine ⟨?_, ?_, ?_, ?_⟩
  · unfold runZipStream
    rw [hflush]
    dsimp only
    rw [hb, hcd]
    decide
  · unfold runZipStream
    rw [hflush]
    dsimp only
    rw [List.length_append, List.length_append, hlenpre, hent,
      endOfCentralDirRecord_length]
    simp [centralDirBytes, centralDirChunk, List.length_append,
      centralDirHeader_length, hlen9]
  · unfold runZipStream
    rw [flushPhase_errored, herr, hb, hcd, hent]
    simp [MAX16, MAX32]
  · unfold runZipStream
    rw [flushPhase_entries, hent]
    exact ⟨_, rfl, rfl, rfl, rfl, rfl, rfl⟩

/-- Witness for C5: with the concrete timestamp `0x210000` the archive is
exactly 118 bytes long. -/
theorem c5_witness :
    (runZipStream [helloCall 2162688] []).byteOffset = 118 :=
  (c5_hello_scenario 2162688 (by decide) (by decide)).1
